import Mathlib

/-
Verification of the connection-establishment and drain subsystems of the
hyper networking library (src/client/connect/http.rs, src/common/drain.rs).

The embedding is a pure shallow model of the poll-based state machines.
External capabilities (the OS dial primitive, the timer, the tokio channel
primitives) are abstracted into explicit environment records; machine state
(address cursors, in-flight attempts, fallback branches, drain edge state)
is explicit data. Sockets and io errors are opaque tokens (Nat); host
strings are opaque tokens (Nat) together with an abstract literal-IP
parser capability, since only the success or failure of parsing matters
to the control flow.
-/

/-- An opaque connected socket (the TcpStream a successful dial yields). -/
abbrev Sock := Nat

/-- An opaque io error value. -/
abbrev Err := Nat

/-- An IP address, carrying only its family and an opaque payload. -/
inductive IpAddr where
  | v4 (n : Nat)
  | v6 (n : Nat)
  deriving DecidableEq

/-- Address-family discriminator of an IP address. -/
def IpAddr.isV4 : IpAddr → Bool
  | .v4 _ => true
  | .v6 _ => false

/-- A socket address: an IP address plus a port. -/
structure SocketAddr where
  ip : IpAddr
  port : Nat
  deriving DecidableEq

/-- Result of polling one in-flight dial attempt:
connected, still pending, or failed with an error. -/
inductive PollRes where
  | ok (s : Sock)
  | pending
  | error (e : Err)
  deriving DecidableEq

/-- Result of one call to a dialer poll. The crash constructor models a
Rust panic (the expect call on a missing connect error firing). -/
inductive RemoteRes where
  | out (r : PollRes)
  | crash
  deriving DecidableEq

/-- Modelled from the spec: dns::IpAddrs (src/client/connect/dns.rs is not
under src/). An ordered cursor over resolved socket addresses; taking the
next address consumes the head, so a consumed address is never re-returned. -/
abbrev IpAddrs := List SocketAddr

/-- Modelled from the spec: dns::IpAddrs::split_by_preference. The family of
the first address defines preferred; addresses of the other family form the
fallback list, both preserving original order. Empty input gives two empty
lists. -/
def IpAddrs.splitByPreference : IpAddrs → IpAddrs × IpAddrs
  | [] => ([], [])
  | a :: rest =>
    ((a :: rest).filter (fun x => x.ip.isV4 == a.ip.isV4),
     (a :: rest).filter (fun x => x.ip.isV4 != a.ip.isV4))

/-- Modelled from the spec: dns::IpAddrs::try_parse. If the host string
parses as a literal IP address (v4 or v6), produce the singleton address
list built from that literal and the configured port. Host strings are
opaque tokens and the literal-IP parser is the abstract parse argument. -/
def IpAddrs.tryParse (parse : Nat → Option IpAddr) (host : Nat) (port : Nat) :
    Option IpAddrs :=
  (parse host).map fun ip => [⟨ip, port⟩]

/-- The sequential dialer ConnectingTcpRemote: the remaining address cursor
and the at-most-one in-flight dial attempt, identified by its address. -/
structure ConnectingTcpRemote where
  addrs : IpAddrs
  current : Option SocketAddr
  deriving DecidableEq

/-- ConnectingTcpRemote::new. -/
def ConnectingTcpRemote.new (addrs : IpAddrs) : ConnectingTcpRemote :=
  ⟨addrs, none⟩

/-- The environment one poll cycle runs in: the outcome of polling the
in-flight attempt for each address this cycle, the outcome of the
synchronous connect() setup for each address (socket builder, bind), and
whether the happy-eyeballs fallback timer has elapsed. The local address
and reuse_address flag of the source are closed over by this dial
capability, as they only parametrize connect(). -/
structure DialEnv where
  attempt : SocketAddr → PollRes
  connect : SocketAddr → Except Err Unit
  timerElapsed : Bool

/-- The loop body of ConnectingTcpRemote::poll (http.rs lines 455-492),
with the local err variable and the current attempt made explicit.  Returns
the poll result, the dialer state after the call, and the list of addresses
on which a dial was started during this call.  On a failed attempt the
error is recorded and the next address is pulled from the cursor; when the
cursor is exhausted the last recorded error is returned; if no error was
ever recorded the expect call panics (crash). A synchronous connect()
error is returned immediately. -/
def ConnectingTcpRemote.pollLoop (env : DialEnv) :
    Option SocketAddr → Option Err → List SocketAddr →
    RemoteRes × ConnectingTcpRemote × List SocketAddr
  | some a, _, addrs =>
    match env.attempt a with
    | .ok s => (.out (.ok s), ⟨addrs, some a⟩, [])
    | .pending => (.out .pending, ⟨addrs, some a⟩, [])
    | .error e =>
      match addrs with
      | a2 :: rest =>
        match env.connect a2 with
        | .ok _ =>
          let r := ConnectingTcpRemote.pollLoop env (some a2) (some e) rest
          (r.1, r.2.1, a2 :: r.2.2)
        | .error e2 => (.out (.error e2), ⟨rest, some a⟩, [])
      | [] => (.out (.error e), ⟨[], some a⟩, [])
  | none, err, addrs =>
    match addrs with
    | a :: rest =>
      match env.connect a with
      | .ok _ =>
        let r := ConnectingTcpRemote.pollLoop env (some a) err rest
        (r.1, r.2.1, a :: r.2.2)
      | .error e2 => (.out (.error e2), ⟨rest, none⟩, [])
    | [] =>
      match err with
      | some e => (.out (.error e), ⟨[], none⟩, [])
      | none => (.crash, ⟨[], none⟩, [])

/-- ConnectingTcpRemote::poll: run the loop from the stored state with the
local err variable initialized to none. -/
def ConnectingTcpRemote.poll (env : DialEnv) (r : ConnectingTcpRemote) :
    RemoteRes × ConnectingTcpRemote × List SocketAddr :=
  ConnectingTcpRemote.pollLoop env r.current none r.addrs

/-- The happy-eyeballs coordinator ConnectingTcp: a preferred dialer and an
optional fallback branch (the Delay timer state lives in DialEnv). -/
structure ConnectingTcp where
  preferred : ConnectingTcpRemote
  fallback : Option ConnectingTcpRemote
  deriving DecidableEq

/-- ConnectingTcp::new (http.rs lines 398-434): with a fallback timeout
configured, split the resolved addresses by preference; if the fallback
half is empty there is no fallback branch, otherwise the fallback dialer is
parked behind the timer. Without a timeout the whole list feeds the single
preferred dialer. -/
def ConnectingTcp.new (remoteAddrs : IpAddrs) (fallbackTimeout : Option Nat) :
    ConnectingTcp :=
  match fallbackTimeout with
  | some _ =>
    let pr := IpAddrs.splitByPreference remoteAddrs
    if pr.2.isEmpty then ⟨ConnectingTcpRemote.new pr.1, none⟩
    else ⟨ConnectingTcpRemote.new pr.1, some (ConnectingTcpRemote.new pr.2)⟩
  | none => ⟨ConnectingTcpRemote.new remoteAddrs, none⟩

/-- Observable events of one ConnectingTcp::poll cycle, by call site:
pollPreferred marks a call of self.preferred.poll (both the entry call and
the call after a fallback dialer has been promoted to self.preferred),
pollTimer marks polling the fallback delay, and pollFallback marks the
call of fallback.remote.poll while that dialer is still held as the
fallback branch (http.rs line 539). -/
inductive Ev where
  | pollPreferred
  | pollTimer
  | pollFallback
  deriving DecidableEq

/-- ConnectingTcp::poll (http.rs lines 529-569). The fallback branch is
taken out of the state at entry; every path that keeps it re-stores it.
Returns the poll result, the coordinator state after the call, and the
event trace of the cycle. -/
def ConnectingTcp.poll (env : DialEnv) (c : ConnectingTcp) :
    RemoteRes × ConnectingTcp × List Ev :=
  match c.fallback with
  | none =>
    ((ConnectingTcpRemote.poll env c.preferred).1,
     ⟨(ConnectingTcpRemote.poll env c.preferred).2.1, none⟩,
     [Ev.pollPreferred])
  | some fb =>
    let rp := ConnectingTcpRemote.poll env c.preferred
    match rp.1 with
    | .out (.ok s) =>
      -- Preferred successful: drop fallback.
      (.out (.ok s), ⟨rp.2.1, none⟩, [Ev.pollPreferred])
    | .out .pending =>
      if env.timerElapsed then
        let rf := ConnectingTcpRemote.poll env fb
        match rf.1 with
        | .out (.ok s) =>
          -- Fallback successful: drop current preferred, keep fallback
          -- as the new preferred.
          (.out (.ok s), ⟨rf.2.1, none⟩,
           [Ev.pollPreferred, Ev.pollTimer, Ev.pollFallback])
        | .out .pending =>
          -- Neither preferred nor fallback are ready.
          (.out .pending, ⟨rp.2.1, some rf.2.1⟩,
           [Ev.pollPreferred, Ev.pollTimer, Ev.pollFallback])
        | .out (.error _) =>
          -- Fallback failed: resume with preferred only.
          (.out .pending, ⟨rp.2.1, none⟩,
           [Ev.pollPreferred, Ev.pollTimer, Ev.pollFallback])
        | .crash =>
          (.crash, ⟨rp.2.1, none⟩,
           [Ev.pollPreferred, Ev.pollTimer, Ev.pollFallback])
      else
        -- Too early to attempt fallback.
        (.out .pending, ⟨rp.2.1, some fb⟩, [Ev.pollPreferred, Ev.pollTimer])
    | .out (.error _) =>
      -- Preferred failed: use fallback as new preferred and poll it now.
      let rq := ConnectingTcpRemote.poll env fb
      (rq.1, ⟨rq.2.1, none⟩, [Ev.pollPreferred, Ev.pollPreferred])
    | .crash => (.crash, ⟨rp.2.1, none⟩, [Ev.pollPreferred])

/-- Generic poll outcome of a future. -/
inductive Poll (α : Type) where
  | pending
  | ready (a : α)
  deriving DecidableEq

/-- Outcome of poll_recv on the completion (mpsc) channel receiver. The
message constructor carries the Never payload type, which is empty: no
message can ever exist on this channel. -/
inductive RecvPoll where
  | pending
  | closed
  | msg (v : Empty)

/-- Semantics of the external tokio-sync mpsc completion channel, as the
spec requires of the primitive: the receiver observes pending while any
sender (one per live Watch clone) is outstanding, and observes close the
instant the last sender is dropped. The channel carries Never, so a
message is impossible. -/
def mpscPollRecv (senders : Nat) : RecvPoll :=
  if senders = 0 then RecvPoll.closed else RecvPoll.pending

/-- Draining::poll (drain.rs lines 66-75): ready out the receiver; a
received message is eliminated by the empty match on Never, and close of
the channel resolves the future with unit. -/
def drainingPoll (senders : Nat) : Poll Unit :=
  match mpscPollRecv senders with
  | RecvPoll.pending => Poll.pending
  | RecvPoll.closed => Poll.ready ()
  | RecvPoll.msg v => v.elim

/-- The Watching combinator (drain.rs): the edge state holds the FnOnce
callback while un-notified (State::Watch) and is none once consumed
(State::Draining); future is the wrapped task state. -/
structure Watching (T : Type) where
  state : Option (T → T)
  future : T

/-- Watch::watch: pair a task with the one-shot on_drain callback. -/
def Watching.watch {T : Type} (future : T) (onDrain : T → T) : Watching T :=
  ⟨some onDrain, future⟩

/-- Watching::poll (drain.rs lines 98-122). The task is a state machine
taskPoll; recvClosed says whether the broadcast receiver observes closure
this cycle (Ready(None)), as opposed to an open value or pending. In the
Watch state with the channel closed, the callback runs once, the state
moves to Draining, and the loop falls through to poll the task; otherwise
the state is restored and the task is polled. The extra Bool reports
whether the callback fired during this poll. -/
def Watching.poll {T Out : Type} (taskPoll : T → Poll Out × T)
    (recvClosed : Bool) (w : Watching T) : (Poll Out × Watching T) × Bool :=
  match w.state with
  | some onDrain =>
    if recvClosed then
      (((taskPoll (onDrain w.future)).1,
        ⟨none, (taskPoll (onDrain w.future)).2⟩), true)
    else
      (((taskPoll w.future).1, ⟨some onDrain, (taskPoll w.future).2⟩), false)
  | none =>
    (((taskPoll w.future).1, ⟨none, (taskPoll w.future).2⟩), false)

/-- Run a Watching through a sequence of polls, one recvClosed observation
per cycle; returns the final state and how many times the callback fired. -/
def Watching.run {T Out : Type} (taskPoll : T → Poll Out × T) :
    Watching T → List Bool → Watching T × Nat
  | w, [] => (w, 0)
  | w, b :: bs =>
    ((Watching.run taskPoll (Watching.poll taskPoll b w).1.2 bs).1,
     (if (Watching.poll taskPoll b w).2 then 1 else 0) +
       (Watching.run taskPoll (Watching.poll taskPoll b w).1.2 bs).2)

/-- URI scheme as far as the connector inspects it. -/
inductive Scheme where
  | http
  | https
  | other
  deriving DecidableEq

/-- The three invalid-destination errors of http.rs (enum InvalidUrl). -/
inductive InvalidUrl where
  | missingScheme
  | notHttp
  | missingAuthority
  deriving DecidableEq

/-- The parts of a Destination uri the connector reads: scheme, host and
explicit port. Hosts are opaque tokens. -/
structure Destination where
  scheme : Option Scheme
  host : Option Nat
  port : Option Nat
  deriving DecidableEq

/-- The configuration fields of HttpConnector that the modelled control
flow reads. -/
structure HttpConnector where
  enforceHttp : Bool
  happyEyeballsTimeout : Option Nat
  keepAliveTimeout : Option Nat
  nodelay : Bool
  reuseAddress : Bool
  sendBufferSize : Option Nat
  recvBufferSize : Option Nat
  deriving DecidableEq

/-- The data a successfully validated connect call hands to the
HttpConnecting future: the host token and the effective port. -/
structure ConnReq where
  host : Nat
  port : Nat
  deriving DecidableEq

/-- Host and port extraction of HttpConnector::connect (http.rs lines
233-252), reached after the scheme checks: a missing host is
MissingAuthority; a missing port defaults to 443 for https and 80
otherwise. -/
def HttpConnector.connectRest (dst : Destination) : Except InvalidUrl ConnReq :=
  match dst.host with
  | none => Except.error InvalidUrl.missingAuthority
  | some h =>
    Except.ok ⟨h,
      match dst.port with
      | some p => p
      | none => if dst.scheme = some Scheme.https then 443 else 80⟩

/-- HttpConnector::connect validation (http.rs lines 225-236): with
enforcement, any scheme other than http (including an absent scheme) is
NotHttp; without enforcement, an absent scheme is MissingScheme; then the
host and port are extracted. -/
def HttpConnector.connect (self : HttpConnector) (dst : Destination) :
    Except InvalidUrl ConnReq :=
  if self.enforceHttp then
    if dst.scheme ≠ some Scheme.http then Except.error InvalidUrl.notHttp
    else HttpConnector.connectRest dst
  else if dst.scheme = none then Except.error InvalidUrl.missingScheme
  else HttpConnector.connectRest dst

/-- The state of the HttpConnecting future, as far as the Lazy arm is
concerned: Lazy and Resolving hold the host token; Connecting holds the
coordinator. -/
inductive HCState where
  | lazy (host : Nat)
  | resolving (host : Nat)
  | connecting (c : ConnectingTcp)
  deriving DecidableEq

/-- The State::Lazy arm of HttpConnecting::poll (http.rs lines 332-341):
if the host parses as a literal IP the state moves directly to Connecting
with the singleton-derived address list; otherwise resolve is issued and
the state moves to Resolving. The Bool reports whether the resolver was
invoked. -/
def HttpConnecting.lazyStep (parse : Nat → Option IpAddr)
    (happyTimeout : Option Nat) (port : Nat) (host : Nat) : HCState × Bool :=
  match IpAddrs.tryParse parse host port with
  | some addrs => (HCState.connecting (ConnectingTcp.new addrs happyTimeout), false)
  | none => (HCState.resolving host, true)

/-- Events of the post-connect option application, in call order. -/
inductive OptEv where
  | keepalive
  | sendBuf
  | recvBuf
  | nodelay
  | peerAddr
  deriving DecidableEq

/-- Results of the fallible socket-option capability calls for the
connected socket of this establishment. -/
structure SockOps where
  keepaliveRes : Except Err Unit
  sendRes : Except Err Unit
  recvRes : Except Err Unit
  nodelayRes : Except Err Unit
  peerRes : Except Err SocketAddr

/-- One conditional option application: skipped when not enabled; on error
the establishment fails there (later steps never run); on success the
event is recorded and the rest runs. -/
def optStep (enabled : Bool) (res : Except Err Unit) (ev : OptEv)
    (rest : Except Err SocketAddr × List OptEv) :
    Except Err SocketAddr × List OptEv :=
  if enabled then
    match res with
    | Except.error e => (Except.error e, [ev])
    | Except.ok _ => (rest.1, ev :: rest.2)
  else rest

/-- The success path of the State::Connecting arm (http.rs lines 353-377):
after the coordinator yields a socket, apply keepalive (if configured),
send buffer size (if configured), receive buffer size (if configured),
then nodelay unconditionally, then read the peer address; the first error
aborts and becomes the establishment result. Returns the result and the
trace of capability calls made. -/
def finishConnect (self : HttpConnector) (ops : SockOps) :
    Except Err SocketAddr × List OptEv :=
  optStep self.keepAliveTimeout.isSome ops.keepaliveRes OptEv.keepalive
    (optStep self.sendBufferSize.isSome ops.sendRes OptEv.sendBuf
      (optStep self.recvBufferSize.isSome ops.recvRes OptEv.recvBuf
        (optStep true ops.nodelayRes OptEv.nodelay
          (match ops.peerRes with
           | Except.error e => (Except.error e, [OptEv.peerAddr])
           | Except.ok a => (Except.ok a, [OptEv.peerAddr])))))

/-- A concrete v4 address used by the concrete evaluation theorems. -/
def wAddrA : SocketAddr := ⟨IpAddr.v4 1, 5⟩

/-- A second concrete v4 address used by the concrete evaluation theorems. -/
def wAddrB : SocketAddr := ⟨IpAddr.v4 2, 7⟩

/-- A dial environment in which every attempt fails with the port of its
address as the error and every connect setup succeeds. -/
def wEnvFail : DialEnv :=
  ⟨fun a => PollRes.error a.port, fun _ => Except.ok (), true⟩

/-- A dial environment in which every attempt is pending, every connect
setup succeeds, and the fallback timer has elapsed. -/
def wEnvPend : DialEnv :=
  ⟨fun _ => PollRes.pending, fun _ => Except.ok (), true⟩

/-- A dial environment in which the attempt on wAddrB fails and every other
attempt is pending, with the fallback timer elapsed. -/
def wEnvC3 : DialEnv :=
  ⟨fun a => if a = wAddrB then PollRes.error 9 else PollRes.pending,
   fun _ => Except.ok (), true⟩

/-- A concrete coordinator with an in-flight preferred attempt on wAddrA
and a fallback branch in-flight on wAddrB, both cursors empty. -/
def wCtcp : ConnectingTcp := ⟨⟨[], some wAddrA⟩, some ⟨[], some wAddrB⟩⟩

/-- A concrete task state machine: always pending, incrementing its state. -/
def wTaskPoll : Nat → Poll Nat × Nat := fun n => (Poll.pending, n + 1)

/-- A concrete Watching over wTaskPoll whose callback adds 100. -/
def wWatching : Watching Nat := ⟨some (fun n => n + 100), 0⟩

/-- A concrete literal-IP parser that accepts every host token. -/
def wParse : Nat → Option IpAddr := fun _ => some (IpAddr.v4 7)

/-- Helper: getLast of a cons equals getLastD of the tail with the head as
default. -/
theorem getLast_cons_eq_getLastD {α : Type} (a : α) (l : List α)
    (h : a :: l ≠ []) : (a :: l).getLast h = l.getLastD a := by
  induction l generalizing a with
  | nil => rfl
  | cons b bs ih =>
    rw [List.getLast_cons (by simp), ih b (by simp)]
    cases bs <;> simp [List.getLastD]

/-- Helper: when every attempt fails and connect setup always succeeds, the
poll loop entered with an in-flight attempt for address a dials every
remaining address exactly once, ends with an empty cursor, and surfaces
the dial error of the last address (a itself if the cursor was empty). -/
theorem pollLoop_all_fail (env : DialEnv) (e : SocketAddr → Err)
    (hA : ∀ a, env.attempt a = PollRes.error (e a))
    (hC : ∀ a, env.connect a = Except.ok ()) :
    ∀ (l : List SocketAddr) (a : SocketAddr) (er : Option Err),
      ConnectingTcpRemote.pollLoop env (some a) er l =
        (RemoteRes.out (PollRes.error (e (l.getLastD a))),
         ⟨[], some (l.getLastD a)⟩, l) := by
  intro l
  induction l with
  | nil => intro a er; simp [ConnectingTcpRemote.pollLoop, hA a, List.getLastD]
  | cons b bs ih =>
    intro a er
    simp only [ConnectingTcpRemote.pollLoop, hA a, hC b, ih b]
    cases bs <;> simp [List.getLastD]

/-- Claim C1: on a non-empty address list where every dial attempt fails
(and connect setup succeeds), a poll of the fresh sequential dialer
returns the dial error recorded for the last address of the list, every
address of the list is dialed exactly once (the returned attempt list is
the address list itself), and the cursor is left empty so no address is
ever re-dialed. -/
theorem remote_poll_exhaustion (env : DialEnv) (e : SocketAddr → Err)
    (hA : ∀ a, env.attempt a = PollRes.error (e a))
    (hC : ∀ a, env.connect a = Except.ok ())
    (l : List SocketAddr) (hl : l ≠ []) :
    ConnectingTcpRemote.poll env ⟨l, none⟩ =
      (RemoteRes.out (PollRes.error (e (l.getLast hl))),
       ⟨[], some (l.getLast hl)⟩, l) := by
  match l, hl with
  | a :: rest, hl =>
    rw [getLast_cons_eq_getLastD]
    simp [ConnectingTcpRemote.poll, ConnectingTcpRemote.pollLoop, hC a,
      pollLoop_all_fail env e hA hC rest a none]

/-- Claim C9: polling a fresh sequential dialer whose address list is empty
does not return an error value at all: the expect call on the never-set
local err fires, i.e. the code panics (crash), for every environment. -/
theorem remote_poll_empty_list_crashes (env : DialEnv) :
    ConnectingTcpRemote.poll env ⟨[], none⟩ =
      (RemoteRes.crash, ⟨[], none⟩, []) := rfl

/-- Helper: when the coordinator has no fallback branch, a poll cycle polls
exactly the preferred dialer and surfaces its result and state. -/
theorem ctcp_poll_no_fallback (env : DialEnv) (c : ConnectingTcp)
    (h : c.fallback = none) :
    ConnectingTcp.poll env c =
      ((ConnectingTcpRemote.poll env c.preferred).1,
       ⟨(ConnectingTcpRemote.poll env c.preferred).2.1, none⟩,
       [Ev.pollPreferred]) := by
  simp [ConnectingTcp.poll, h]

/-- Claim C2: in a poll cycle of a coordinator that still holds a fallback
branch, the first event is a poll of the preferred dialer; the fallback
dialer is polled (as fallback) only if the preferred dialer came back
pending and the timer has elapsed; and whenever the preferred dialer is
ready with a socket in this cycle its result is the one returned. -/
theorem ctcp_preferred_polled_first (env : DialEnv) (c : ConnectingTcp)
    (fb : ConnectingTcpRemote) (hfb : c.fallback = some fb) :
    (ConnectingTcp.poll env c).2.2.head? = some Ev.pollPreferred
    ∧ (Ev.pollFallback ∈ (ConnectingTcp.poll env c).2.2 →
        (ConnectingTcpRemote.poll env c.preferred).1 = RemoteRes.out PollRes.pending
        ∧ env.timerElapsed = true)
    ∧ (∀ s, (ConnectingTcpRemote.poll env c.preferred).1
          = RemoteRes.out (PollRes.ok s) →
        (ConnectingTcp.poll env c).1 = RemoteRes.out (PollRes.ok s)) := by
  rcases hr : ConnectingTcpRemote.poll env c.preferred with ⟨r, st, att⟩
  rcases r with (⟨s⟩ | _ | ⟨e⟩) | _
  · refine ⟨?_, ?_, ?_⟩ <;> simp [ConnectingTcp.poll, hfb, hr]
  · rcases ht : env.timerElapsed with _ | _
    · refine ⟨?_, ?_, ?_⟩ <;> simp [ConnectingTcp.poll, hfb, hr, ht]
    · rcases hf : ConnectingTcpRemote.poll env fb with ⟨rf, stf, attf⟩
      rcases rf with (⟨sf⟩ | _ | ⟨ef⟩) | _ <;>
        (refine ⟨?_, ?_, ?_⟩ <;> simp [ConnectingTcp.poll, hfb, hr, ht, hf])
  · rcases hf : ConnectingTcpRemote.poll env fb with ⟨rf, stf, attf⟩
    refine ⟨?_, ?_, ?_⟩ <;> simp [ConnectingTcp.poll, hfb, hr, hf]
  · refine ⟨?_, ?_, ?_⟩ <;> simp [ConnectingTcp.poll, hfb, hr]

/-- Claim C3: when the timer has elapsed, the preferred dialer is pending
and the fallback dialer fails (its list exhausted), the cycle returns
pending (the fallback error is not propagated), the fallback branch is
discarded, and the preferred dialer is kept; every subsequent cycle of the
resulting coordinator polls only the preferred dialer and surfaces exactly
its result, so once the preferred dialer also exhausts, the terminal error
of the coordinator is the last dial error of the preferred branch. -/
theorem ctcp_fallback_failure_discarded (env : DialEnv) (c : ConnectingTcp)
    (fb : ConnectingTcpRemote) (e : Err)
    (hfb : c.fallback = some fb)
    (ht : env.timerElapsed = true)
    (hp : (ConnectingTcpRemote.poll env c.preferred).1
        = RemoteRes.out PollRes.pending)
    (hf : (ConnectingTcpRemote.poll env fb).1
        = RemoteRes.out (PollRes.error e)) :
    ConnectingTcp.poll env c =
      (RemoteRes.out PollRes.pending,
       ⟨(ConnectingTcpRemote.poll env c.preferred).2.1, none⟩,
       [Ev.pollPreferred, Ev.pollTimer, Ev.pollFallback])
    ∧ (∀ env2,
        ConnectingTcp.poll env2
            ⟨(ConnectingTcpRemote.poll env c.preferred).2.1, none⟩ =
          ((ConnectingTcpRemote.poll env2
              ((ConnectingTcpRemote.poll env c.preferred).2.1)).1,
           ⟨(ConnectingTcpRemote.poll env2
              ((ConnectingTcpRemote.poll env c.preferred).2.1)).2.1, none⟩,
           [Ev.pollPreferred])) := by
  constructor
  · rcases hr : ConnectingTcpRemote.poll env c.preferred with ⟨r, st, att⟩
    rcases hfr : ConnectingTcpRemote.poll env fb with ⟨rf, stf, attf⟩
    rw [hr] at hp
    rw [hfr] at hf
    simp only at hp hf
    subst hp hf
    simp [ConnectingTcp.poll, hfb, hr, hfr, ht]
  · intro env2
    exact ctcp_poll_no_fallback env2 _ rfl

/-- Claim C4: with n live completion senders (one per live Watch clone
derived from one channel() call) and k of them dropped, the Draining
future is pending while at least one clone is alive (k strictly below n),
resolves with unit the moment all n are dropped, and only ever resolves by
observing the channel close, never by receiving a value. -/
theorem draining_pending_until_all_dropped (n k : Nat) :
    (k < n → drainingPoll (n - k) = Poll.pending)
    ∧ (drainingPoll (n - n) = Poll.ready ())
    ∧ (∀ m u, drainingPoll m = Poll.ready u →
        u = () ∧ mpscPollRecv m = RecvPoll.closed) := by
  refine ⟨fun h => ?_, ?_, fun m u h => ?_⟩
  · have : n - k ≠ 0 := Nat.sub_ne_zero_of_lt h
    simp [drainingPoll, mpscPollRecv, this]
  · simp [drainingPoll, mpscPollRecv]
  · refine ⟨rfl, ?_⟩
    by_cases hm : m = 0
    · simp [mpscPollRecv, hm]
    · simp [drainingPoll, mpscPollRecv, hm] at h

/-- Helper: once the edge state is consumed (State::Draining), a run of
polls never fires the callback again and the state stays consumed. -/
theorem watching_run_drained {T Out : Type} (taskPoll : T → Poll Out × T)
    (w : Watching T) (hw : w.state = none) (bs : List Bool) :
    (Watching.run taskPoll w bs).1.state = none
    ∧ (Watching.run taskPoll w bs).2 = 0 := by
  induction bs generalizing w with
  | nil => exact ⟨hw, rfl⟩
  | cons b bs ih =>
    have hstep : (Watching.poll taskPoll b w).1.2.state = none
        ∧ (Watching.poll taskPoll b w).2 = false := by
      simp [Watching.poll, hw]
    refine ⟨?_, ?_⟩
    · simpa [Watching.run] using (ih _ hstep.1).1
    · simp [Watching.run, hstep.2, (ih _ hstep.1).2]

/-- Claim C5: over any sequence of polls the on_drain callback of a
Watching fires at most once; once the edge state is consumed every poll
goes straight to the wrapped task (polling it and surfacing its output);
and in the very cycle in which the drain edge is observed the task is
polled right after the callback runs, Watching returning that task
output. -/
theorem watching_notifies_at_most_once {T Out : Type}
    (taskPoll : T → Poll Out × T) (w : Watching T) (bs : List Bool) :
    (Watching.run taskPoll w bs).2 ≤ 1
    ∧ (∀ (b : Bool) (w2 : Watching T), w2.state = none →
        Watching.poll taskPoll b w2 =
          (((taskPoll w2.future).1, ⟨none, (taskPoll w2.future).2⟩), false))
    ∧ (∀ (w2 : Watching T) (f : T → T), w2.state = some f →
        Watching.poll taskPoll true w2 =
          (((taskPoll (f w2.future)).1, ⟨none, (taskPoll (f w2.future)).2⟩),
           true)) := by
  refine ⟨?_, fun b w2 h2 => by simp [Watching.poll, h2],
    fun w2 f h2 => by simp [Watching.poll, h2]⟩
  induction bs generalizing w with
  | nil => simp [Watching.run]
  | cons b bs ih =>
    rcases hw : w.state with _ | f
    · have h := watching_run_drained taskPoll w hw (b :: bs)
      omega
    · rcases b with _ | _
      · have hstep : (Watching.poll taskPoll false w).1.2.state = some f
            ∧ (Watching.poll taskPoll false w).2 = false := by
          simp [Watching.poll, hw]
        have := ih (Watching.poll taskPoll false w).1.2
        simp [Watching.run, hstep.2]
        omega
      · have hstep : (Watching.poll taskPoll true w).1.2.state = none
            ∧ (Watching.poll taskPoll true w).2 = true := by
          simp [Watching.poll, hw]
        have hrest := watching_run_drained taskPoll
          (Watching.poll taskPoll true w).1.2 hstep.1 bs
        simp [Watching.run, hstep.2, hrest.2]

/-- Claim C6: whenever the host token parses as a literal IP address, the
Lazy arm moves directly to the Connecting state built over the singleton
address list derived from that literal and the configured port, and the
resolver is not invoked. -/
theorem lazy_literal_ip_short_circuit (parse : Nat → Option IpAddr)
    (happyTimeout : Option Nat) (port host : Nat) (ip : IpAddr)
    (h : parse host = some ip) :
    HttpConnecting.lazyStep parse happyTimeout port host =
      (HCState.connecting (ConnectingTcp.new [⟨ip, port⟩] happyTimeout),
       false) := by
  simp [HttpConnecting.lazyStep, IpAddrs.tryParse, h]

/-- Claim C7 counterexample: a destination with no scheme, under the
default HTTP-only enforcement, is rejected with NotHttp and not with
MissingScheme, contradicting the claim that a destination with no scheme
yields MissingScheme. -/
theorem connect_no_scheme_yields_notHttp :
    HttpConnector.connect ⟨true, none, none, false, false, none, none⟩
        ⟨none, some 1, none⟩ = Except.error InvalidUrl.notHttp
    ∧ InvalidUrl.notHttp ≠ InvalidUrl.missingScheme := ⟨rfl, by decide⟩

/-- Claim C7 (amended): connect rejects malformed destinations before any
io. With enforcement disabled, a destination with no scheme yields
MissingScheme; with enforcement enabled, any scheme other than http
(including an absent scheme) yields NotHttp; a destination passing the
scheme checks with no host yields MissingAuthority. -/
theorem connect_invalid_url_classification (self : HttpConnector)
    (dst : Destination) :
    (self.enforceHttp = false → dst.scheme = none →
      HttpConnector.connect self dst = Except.error InvalidUrl.missingScheme)
    ∧ (self.enforceHttp = true → dst.scheme ≠ some Scheme.http →
      HttpConnector.connect self dst = Except.error InvalidUrl.notHttp)
    ∧ ((self.enforceHttp = true → dst.scheme = some Scheme.http) →
       (self.enforceHttp = false → dst.scheme ≠ none) →
       dst.host = none →
      HttpConnector.connect self dst
        = Except.error InvalidUrl.missingAuthority) := by
  refine ⟨fun he hs => ?_, fun he hs => ?_, fun h1 h2 hh => ?_⟩
  · simp [HttpConnector.connect, he, hs]
  · simp [HttpConnector.connect, he, hs]
  · rcases he : self.enforceHttp with _ | _
    · simp [HttpConnector.connect, he, h2 he, HttpConnector.connectRest, hh]
    · simp [HttpConnector.connect, he, h1 he, HttpConnector.connectRest, hh]

/-- Claim C10: every destination accepted by connect that carries no
explicit port gets port 443 when its scheme is https and port 80 in every
other case. -/
theorem connect_default_port (self : HttpConnector) (dst : Destination)
    (req : ConnReq) (h : HttpConnector.connect self dst = Except.ok req)
    (hp : dst.port = none) :
    req.port = if dst.scheme = some Scheme.https then 443 else 80 := by
  rcases hh : dst.host with _ | hv <;>
    simp only [HttpConnector.connect, HttpConnector.connectRest, hh, hp] at h <;>
    split_ifs at h <;> simp_all <;> simp [← h]

/-- Claim C8 counterexample: with all options configured and every
capability call succeeding, the recorded call order is keepalive, send
buffer, receive buffer, nodelay, peer address, which differs from the
claimed order keepalive, nodelay, send buffer, receive buffer, peer
address. -/
theorem socket_option_order_counterexample :
    (finishConnect ⟨true, none, some 1, true, false, some 2, some 3⟩
        ⟨Except.ok (), Except.ok (), Except.ok (), Except.ok (),
         Except.ok ⟨IpAddr.v4 1, 80⟩⟩).2
      = [OptEv.keepalive, OptEv.sendBuf, OptEv.recvBuf, OptEv.nodelay,
         OptEv.peerAddr]
    ∧ [OptEv.keepalive, OptEv.sendBuf, OptEv.recvBuf, OptEv.nodelay,
       OptEv.peerAddr]
      ≠ [OptEv.keepalive, OptEv.nodelay, OptEv.sendBuf, OptEv.recvBuf,
         OptEv.peerAddr] := ⟨rfl, by decide⟩

/-- Claim C8 (amended): after the coordinator yields a socket, the
post-connect options are applied in the order keepalive duration, send
buffer size, receive buffer size, no-delay flag, and then the peer address
is read; when every call succeeds the result is the peer address with
exactly that call trace, and the first failing call aborts establishment
with its error (no further address is attempted: only option events are
ever emitted past this point). -/
theorem socket_option_application_spec (self : HttpConnector)
    (ops : SockOps)
    (hk : self.keepAliveTimeout.isSome = true)
    (hs : self.sendBufferSize.isSome = true)
    (hr : self.recvBufferSize.isSome = true) :
    (∀ a, ops.keepaliveRes = Except.ok () → ops.sendRes = Except.ok () →
      ops.recvRes = Except.ok () → ops.nodelayRes = Except.ok () →
      ops.peerRes = Except.ok a →
      finishConnect self ops =
        (Except.ok a, [OptEv.keepalive, OptEv.sendBuf, OptEv.recvBuf,
          OptEv.nodelay, OptEv.peerAddr]))
    ∧ (∀ e, ops.keepaliveRes = Except.error e →
        (finishConnect self ops).1 = Except.error e)
    ∧ (∀ e, ops.keepaliveRes = Except.ok () → ops.sendRes = Except.error e →
        (finishConnect self ops).1 = Except.error e)
    ∧ (∀ e, ops.keepaliveRes = Except.ok () → ops.sendRes = Except.ok () →
        ops.recvRes = Except.error e →
        (finishConnect self ops).1 = Except.error e)
    ∧ (∀ e, ops.keepaliveRes = Except.ok () → ops.sendRes = Except.ok () →
        ops.recvRes = Except.ok () → ops.nodelayRes = Except.error e →
        (finishConnect self ops).1 = Except.error e)
    ∧ (∀ e, ops.keepaliveRes = Except.ok () → ops.sendRes = Except.ok () →
        ops.recvRes = Except.ok () → ops.nodelayRes = Except.ok () →
        ops.peerRes = Except.error e →
        (finishConnect self ops).1 = Except.error e) := by
  refine ⟨fun a h1 h2 h3 h4 h5 => ?_, fun e h1 => ?_,
    fun e h1 h2 => ?_, fun e h1 h2 h3 => ?_,
    fun e h1 h2 h3 h4 => ?_, fun e h1 h2 h3 h4 h5 => ?_⟩ <;>
    simp [finishConnect, optStep, hk, hs, hr, *]

/-- Witness for remote_poll_exhaustion at a concrete two-address list. -/
theorem remote_poll_exhaustion_witness :
    ConnectingTcpRemote.poll wEnvFail ⟨[wAddrA, wAddrB], none⟩ =
      (RemoteRes.out (PollRes.error wAddrB.port), ⟨[], some wAddrB⟩,
       [wAddrA, wAddrB]) :=
  remote_poll_exhaustion wEnvFail (fun a => a.port) (fun _ => rfl)
    (fun _ => rfl) [wAddrA, wAddrB] (by simp)

/-- Witness for ctcp_preferred_polled_first at a concrete coordinator that
still holds a fallback branch. -/
theorem ctcp_preferred_polled_first_witness :
    (ConnectingTcp.poll wEnvPend wCtcp).2.2.head? = some Ev.pollPreferred
    ∧ (Ev.pollFallback ∈ (ConnectingTcp.poll wEnvPend wCtcp).2.2 →
        (ConnectingTcpRemote.poll wEnvPend wCtcp.preferred).1
          = RemoteRes.out PollRes.pending
        ∧ wEnvPend.timerElapsed = true)
    ∧ (∀ s, (ConnectingTcpRemote.poll wEnvPend wCtcp.preferred).1
          = RemoteRes.out (PollRes.ok s) →
        (ConnectingTcp.poll wEnvPend wCtcp).1
          = RemoteRes.out (PollRes.ok s)) :=
  ctcp_preferred_polled_first wEnvPend wCtcp ⟨[], some wAddrB⟩ rfl

/-- Witness for ctcp_fallback_failure_discarded at a concrete coordinator
whose fallback dialer fails while the preferred one is pending. -/
theorem ctcp_fallback_failure_discarded_witness :
    ConnectingTcp.poll wEnvC3 wCtcp =
      (RemoteRes.out PollRes.pending,
       ⟨(ConnectingTcpRemote.poll wEnvC3 wCtcp.preferred).2.1, none⟩,
       [Ev.pollPreferred, Ev.pollTimer, Ev.pollFallback])
    ∧ (∀ env2,
        ConnectingTcp.poll env2
            ⟨(ConnectingTcpRemote.poll wEnvC3 wCtcp.preferred).2.1, none⟩ =
          ((ConnectingTcpRemote.poll env2
              ((ConnectingTcpRemote.poll wEnvC3 wCtcp.preferred).2.1)).1,
           ⟨(ConnectingTcpRemote.poll env2
              ((ConnectingTcpRemote.poll wEnvC3 wCtcp.preferred).2.1)).2.1,
            none⟩,
           [Ev.pollPreferred])) :=
  ctcp_fallback_failure_discarded wEnvC3 wCtcp ⟨[], some wAddrB⟩ 9 rfl rfl
    (by decide) (by decide)

/-- Witness for draining_pending_until_all_dropped with three clones, one
of which has been dropped, and then all three dropped. -/
theorem draining_pending_until_all_dropped_witness :
    drainingPoll (3 - 1) = Poll.pending
    ∧ drainingPoll (3 - 3) = Poll.ready () :=
  ⟨(draining_pending_until_all_dropped 3 1).1 (by decide),
   (draining_pending_until_all_dropped 3 1).2.1⟩

/-- Witness for watching_notifies_at_most_once on a concrete run in which
the drain edge is observed on the second poll and again offered on the
third. -/
theorem watching_notifies_at_most_once_witness :
    (Watching.run wTaskPoll wWatching [false, true, true]).2 ≤ 1
    ∧ Watching.poll wTaskPoll false (⟨none, 5⟩ : Watching Nat) =
        ((Poll.pending, ⟨none, 6⟩), false)
    ∧ Watching.poll wTaskPoll true wWatching =
        ((Poll.pending, ⟨none, 101⟩), true) :=
  ⟨(watching_notifies_at_most_once wTaskPoll wWatching [false, true, true]).1,
   (watching_notifies_at_most_once wTaskPoll wWatching
      [false, true, true]).2.1 false ⟨none, 5⟩ rfl,
   (watching_notifies_at_most_once wTaskPoll wWatching
      [false, true, true]).2.2 wWatching (fun n => n + 100) rfl⟩

/-- Witness for lazy_literal_ip_short_circuit at a concrete parser, host
and port. -/
theorem lazy_literal_ip_short_circuit_witness :
    HttpConnecting.lazyStep wParse (some 300) 80 1 =
      (HCState.connecting
        (ConnectingTcp.new [⟨IpAddr.v4 7, 80⟩] (some 300)), false) :=
  lazy_literal_ip_short_circuit wParse (some 300) 80 1 (IpAddr.v4 7) rfl

/-- Witness for connect_invalid_url_classification at three concrete
destinations, one per error class. -/
theorem connect_invalid_url_classification_witness :
    HttpConnector.connect ⟨false, none, none, false, false, none, none⟩
        ⟨none, some 1, none⟩ = Except.error InvalidUrl.missingScheme
    ∧ HttpConnector.connect ⟨true, none, none, false, false, none, none⟩
        ⟨some Scheme.https, some 1, none⟩ = Except.error InvalidUrl.notHttp
    ∧ HttpConnector.connect ⟨true, none, none, false, false, none, none⟩
        ⟨some Scheme.http, none, none⟩
        = Except.error InvalidUrl.missingAuthority :=
  ⟨(connect_invalid_url_classification _ _).1 rfl rfl,
   (connect_invalid_url_classification _ _).2.1 rfl (by decide),
   (connect_invalid_url_classification _ _).2.2 (fun _ => rfl)
     (fun h => nomatch h) rfl⟩

/-- Witness for socket_option_application_spec on the all-configured,
all-successful path. -/
theorem socket_option_application_spec_witness :
    finishConnect ⟨true, none, some 1, true, false, some 2, some 3⟩
        ⟨Except.ok (), Except.ok (), Except.ok (), Except.ok (),
         Except.ok ⟨IpAddr.v6 4, 443⟩⟩ =
      (Except.ok ⟨IpAddr.v6 4, 443⟩,
       [OptEv.keepalive, OptEv.sendBuf, OptEv.recvBuf, OptEv.nodelay,
        OptEv.peerAddr]) :=
  (socket_option_application_spec
      ⟨true, none, some 1, true, false, some 2, some 3⟩
      ⟨Except.ok (), Except.ok (), Except.ok (), Except.ok (),
       Except.ok ⟨IpAddr.v6 4, 443⟩⟩ rfl rfl rfl).1 ⟨IpAddr.v6 4, 443⟩
    rfl rfl rfl rfl rfl

/-- Witness for connect_default_port at a concrete https destination with
no explicit port, accepted with enforcement disabled. -/
theorem connect_default_port_witness :
    HttpConnector.connect ⟨false, none, none, false, false, none, none⟩
        ⟨some Scheme.https, some 2, none⟩ = Except.ok ⟨2, 443⟩
    ∧ (ConnReq.mk 2 443).port
        = (if (some Scheme.https : Option Scheme) = some Scheme.https
           then 443 else 80) :=
  ⟨rfl, connect_default_port ⟨false, none, none, false, false, none, none⟩
    ⟨some Scheme.https, some 2, none⟩ ⟨2, 443⟩ rfl rfl⟩
